import Mathlib

/-!
Verification of the natural-language specification of the
30DayMapChallenge-15_Fire repository against its source.

The shallow embedding below translates the relevant JavaScript from
`src/src/tabs/MapTab.vue` and `src/src/stores/dataStore.js` into Lean:

* JS numbers that only ever hold exact decimal values (gradient stops,
  intensities, coordinates) are modelled as `ℚ`;
* JS numbers that may be `NaN`/`Infinity` (projection output) are modelled
  by the inductive `JsNum`;
* `null`/`undefined` is `Option`;
* JS strings are `String`.

Each section names the source function it embeds.
-/

namespace FireMap

/-! ### Color helpers, from `MapTab.vue` lines 646-692 (`D3HeatmapLayer._render`)

`hexToRgb` embeds the JS
`/^#?([a-f\d]{2})([a-f\d]{2})([a-f\d]{2})$/i` regex parse followed by
`parseInt(_, 16)` on each two-digit group: an optional leading `#`,
then exactly six case-insensitive hex digits. -/

def isHexDigit (c : Char) : Bool :=
  c.isDigit || ('a' ≤ c && c ≤ 'f') || ('A' ≤ c && c ≤ 'F')

def hexVal (c : Char) : ℕ :=
  if c.isDigit then c.toNat - 48
  else if 'a' ≤ c then c.toNat - 97 + 10
  else c.toNat - 65 + 10

def hexPair (a b : Char) : ℕ := 16 * hexVal a + hexVal b

def hexToRgb (hex : String) : Option (ℕ × ℕ × ℕ) :=
  let l : List Char :=
    match hex.data with
    | '#' :: t => t
    | t => t
  match l with
  | [a, b, c, d, e, f] =>
    if isHexDigit a && isHexDigit b && isHexDigit c &&
       isHexDigit d && isHexDigit e && isHexDigit f then
      some (hexPair a b, hexPair c d, hexPair e f)
    else none
  | _ => none

/-- JS `Math.round`: round half toward positive infinity. -/
def jsRound (q : ℚ) : ℤ := ⌊q + 1 / 2⌋

def hexDigitChar (n : ℕ) : Char :=
  if n < 10 then Char.ofNat (48 + n) else Char.ofNat (97 + n - 10)

/-- Digit-list recursion for `natToHex`, driven by fuel so that the
definition is structural and reduces definitionally; `fuel = n + 1` is
always enough since a number has at most `n + 1` hexadecimal digits. -/
def natToHexAux : ℕ → ℕ → List Char
  | 0, _ => []
  | f + 1, n =>
    if n < 16 then [hexDigitChar n]
    else natToHexAux f (n / 16) ++ [hexDigitChar (n % 16)]

/-- JS `Number.prototype.toString(16)` for a natural number: lowercase
hexadecimal digits, no padding. -/
def natToHex (n : ℕ) : String := String.mk (natToHexAux (n + 1) n)

/-- JS `padStart(2, '0')` on the output of `natToHex` (always nonempty). -/
def padTwo (s : String) : String := if s.length < 2 then "0" ++ s else s

/-- `rgbToHex` from `MapTab.vue` lines 657-661:
`'#' + [r, g, b].map((x) => Math.round(x).toString(16).padStart(2, '0')).join('')`.
The rounded values are nonnegative at every call site (they are convex
combinations of parsed bytes), so `Int.toNat` is exact. -/
def rgbToHex (r g b : ℚ) : String :=
  "#" ++ String.join ([r, g, b].map (fun x => padTwo (natToHex (jsRound x).toNat)))

/-- `interpolateColor` from `MapTab.vue` lines 663-673: componentwise linear
interpolation of the two parsed colors; if either endpoint fails to parse,
the first argument is returned unchanged. -/
def interpolateColor (color1 color2 : String) (factor : ℚ) : String :=
  match hexToRgb color1, hexToRgb color2 with
  | some rgb1, some rgb2 =>
    let r : ℚ := (rgb1.1 : ℚ) + ((rgb2.1 : ℚ) - (rgb1.1 : ℚ)) * factor
    let g : ℚ := (rgb1.2.1 : ℚ) + ((rgb2.2.1 : ℚ) - (rgb1.2.1 : ℚ)) * factor
    let b : ℚ := (rgb1.2.2 : ℚ) + ((rgb2.2.2 : ℚ) - (rgb1.2.2 : ℚ)) * factor
    rgbToHex r g b
  | _, _ => color1

/-- The interval-search loop of `getColor` (`MapTab.vue` lines 684-690):
`for (let i = 0; i < stops.length - 1; i++) if (intensity >= stops[i].stop
&& intensity <= stops[i+1].stop) return interpolateColor(...)`. -/
def findStopInterval (stops : List (ℚ × String)) (intensity : ℚ) : Option String :=
  match stops with
  | a :: b :: rest =>
    if a.1 ≤ intensity ∧ intensity ≤ b.1 then
      some (interpolateColor a.2 b.2 ((intensity - a.1) / (b.1 - a.1)))
    else findStopInterval (b :: rest) intensity
  | _ => none

/-- `getColor` from `MapTab.vue` lines 675-692.  The JS builds `stops` by
sorting the parsed gradient keys; here the caller passes the sorted list.
`stops[0]`/`stops[stops.length - 1]` would throw on an empty gradient; the
configured gradient is nonempty, and `headD`/`getLastD` defaults are never
reached at the call sites below. -/
def getColor (stops : List (ℚ × String)) (intensity : ℚ) : String :=
  if intensity ≤ 0 then (stops.headD (0, "")).2
  else if 1 ≤ intensity then (stops.getLastD (0, "")).2
  else
    match findStopInterval stops intensity with
    | some c => c
    | none => (stops.headD (0, "")).2

/-- The heatmap gradient configured in `MapTab.vue` lines 54-67
(`heatmapConfig.gradient`), as the sorted `(stop, color)` list that
`getColor` computes from `Object.keys(config.gradient)`. -/
def fireGradient : List (ℚ × String) :=
  [(0, "#000000"), (1/10, "#400000"), (2/10, "#800000"), (3/10, "#B62203"),
   (4/10, "#D73502"), (5/10, "#FC6400"), (6/10, "#FF7500"), (7/10, "#FFA500"),
   (8/10, "#FFD700"), (9/10, "#FFFF00"), (95/100, "#FFFFAA"), (1, "#FFFFFF")]

/-! Evaluation lemmas for `getColor` at the configured stops.  At a stop
value the matched interval ends at that stop, so the interpolation factor
is exactly `1` and `interpolateColor` reproduces the stop's RGB value,
re-serialized by `rgbToHex` in lowercase. -/

/-- `rgbToHex` restricted to natural-number components (the form every
call with factor `1` reduces to). -/
def rgbToHexN (r g b : ℕ) : String :=
  "#" ++ String.join [padTwo (natToHex r), padTwo (natToHex g), padTwo (natToHex b)]

lemma jsRound_natCast (n : ℕ) : jsRound ((n : ℚ)) = (n : ℤ) := by
  unfold jsRound
  rw [Int.floor_eq_iff]
  constructor <;> push_cast <;> linarith

lemma rgbToHex_natCast (r g b : ℕ) :
    rgbToHex (r : ℚ) (g : ℚ) (b : ℚ) = rgbToHexN r g b := by
  simp [rgbToHex, rgbToHexN, jsRound_natCast]

lemma interpolateColor_one (c1 c2 : String) (p1 p2 : ℕ × ℕ × ℕ)
    (h1 : hexToRgb c1 = some p1) (h2 : hexToRgb c2 = some p2) :
    interpolateColor c1 c2 1 = rgbToHexN p2.1 p2.2.1 p2.2.2 := by
  have e1 : (p1.1 : ℚ) + ((p2.1 : ℚ) - (p1.1 : ℚ)) * 1 = ((p2.1 : ℕ) : ℚ) := by ring
  have e2 : (p1.2.1 : ℚ) + ((p2.2.1 : ℚ) - (p1.2.1 : ℚ)) * 1 = ((p2.2.1 : ℕ) : ℚ) := by ring
  have e3 : (p1.2.2 : ℚ) + ((p2.2.2 : ℚ) - (p1.2.2 : ℚ)) * 1 = ((p2.2.2 : ℕ) : ℚ) := by ring
  simp only [interpolateColor, h1, h2, e1, e2, e3, rgbToHex_natCast]

lemma findStopInterval_cons (a b : ℚ × String) (rest : List (ℚ × String)) (x : ℚ) :
    findStopInterval (a :: b :: rest) x =
      if a.1 ≤ x ∧ x ≤ b.1 then
        some (interpolateColor a.2 b.2 ((x - a.1) / (b.1 - a.1)))
      else findStopInterval (b :: rest) x := rfl

lemma getColor_eval_01 : getColor fireGradient (1/10) = "#400000" := by
  rw [getColor, if_neg (by norm_num), if_neg (by norm_num), fireGradient]
  simp only [findStopInterval_cons]
  norm_num
  rw [interpolateColor_one _ _ (0, 0, 0) (64, 0, 0) (by decide) (by decide)]
  decide

lemma getColor_eval_02 : getColor fireGradient (2/10) = "#800000" := by
  rw [getColor, if_neg (by norm_num), if_neg (by norm_num), fireGradient]
  simp only [findStopInterval_cons]
  norm_num
  rw [interpolateColor_one _ _ (64, 0, 0) (128, 0, 0) (by decide) (by decide)]
  decide

lemma getColor_eval_03 : getColor fireGradient (3/10) = "#b62203" := by
  rw [getColor, if_neg (by norm_num), if_neg (by norm_num), fireGradient]
  simp only [findStopInterval_cons]
  norm_num
  rw [interpolateColor_one _ _ (128, 0, 0) (182, 34, 3) (by decide) (by decide)]
  decide

lemma getColor_eval_04 : getColor fireGradient (4/10) = "#d73502" := by
  rw [getColor, if_neg (by norm_num), if_neg (by norm_num), fireGradient]
  simp only [findStopInterval_cons]
  norm_num
  rw [interpolateColor_one _ _ (182, 34, 3) (215, 53, 2) (by decide) (by decide)]
  decide

lemma getColor_eval_05 : getColor fireGradient (5/10) = "#fc6400" := by
  rw [getColor, if_neg (by norm_num), if_neg (by norm_num), fireGradient]
  simp only [findStopInterval_cons]
  norm_num
  rw [interpolateColor_one _ _ (215, 53, 2) (252, 100, 0) (by decide) (by decide)]
  decide

lemma getColor_eval_06 : getColor fireGradient (6/10) = "#ff7500" := by
  rw [getColor, if_neg (by norm_num), if_neg (by norm_num), fireGradient]
  simp only [findStopInterval_cons]
  norm_num
  rw [interpolateColor_one _ _ (252, 100, 0) (255, 117, 0) (by decide) (by decide)]
  decide

lemma getColor_eval_07 : getColor fireGradient (7/10) = "#ffa500" := by
  rw [getColor, if_neg (by norm_num), if_neg (by norm_num), fireGradient]
  simp only [findStopInterval_cons]
  norm_num
  rw [interpolateColor_one _ _ (255, 117, 0) (255, 165, 0) (by decide) (by decide)]
  decide

lemma getColor_eval_08 : getColor fireGradient (8/10) = "#ffd700" := by
  rw [getColor, if_neg (by norm_num), if_neg (by norm_num), fireGradient]
  simp only [findStopInterval_cons]
  norm_num
  rw [interpolateColor_one _ _ (255, 165, 0) (255, 215, 0) (by decide) (by decide)]
  decide

lemma getColor_eval_09 : getColor fireGradient (9/10) = "#ffff00" := by
  rw [getColor, if_neg (by norm_num), if_neg (by norm_num), fireGradient]
  simp only [findStopInterval_cons]
  norm_num
  rw [interpolateColor_one _ _ (255, 215, 0) (255, 255, 0) (by decide) (by decide)]
  decide

lemma getColor_eval_095 : getColor fireGradient (95/100) = "#ffffaa" := by
  rw [getColor, if_neg (by norm_num), if_neg (by norm_num), fireGradient]
  simp only [findStopInterval_cons]
  norm_num
  rw [interpolateColor_one _ _ (255, 255, 0) (255, 255, 170) (by decide) (by decide)]
  decide

/-- Claim C1, counterexample: at the exact stop `0.3` the code returns the
re-serialized lowercase hex string `"#b62203"`, which is not the configured
stop color string `"#B62203"`, so `getColor` does not return the stop's
exact configured color at every stop value. -/
theorem getColor_stop_literal_counterexample :
    getColor fireGradient (3/10) = "#b62203" ∧
    getColor fireGradient (3/10) ≠ "#B62203" :=
  ⟨getColor_eval_03, by rw [getColor_eval_03]; decide⟩

/-- Claim C1 (amended): for every intensity equal to a gradient stop
threshold, `getColor` returns a color whose parsed RGB value is exactly the
stop's configured RGB value (the string is the lowercase re-serialization,
verbatim at the two boundary stops); every intensity `≤ 0` returns the
lowest stop's color verbatim and every intensity `≥ 1` the highest stop's
color verbatim; and since the configured stops span exactly `[0, 1]`, every
intensity strictly between `0` and `1` lies inside the stop range (the
out-of-range snapping case is vacuous for this gradient). -/
theorem getColor_stops_rgb (x : ℚ) :
    (x ≤ 0 → getColor fireGradient x = "#000000") ∧
    (1 ≤ x → getColor fireGradient x = "#FFFFFF") ∧
    (∀ p ∈ fireGradient, p.1 = x →
      (hexToRgb p.2).isSome ∧ hexToRgb (getColor fireGradient x) = hexToRgb p.2) ∧
    (0 < x → x < 1 →
      (fireGradient.headD (0, "")).1 ≤ x ∧ x ≤ (fireGradient.getLastD (0, "")).1) := by
  refine ⟨fun h => ?_, fun h => ?_, fun p hp hx => ?_, fun h1 h2 => ?_⟩
  · rw [getColor, if_pos h]; rfl
  · rw [getColor, if_neg (by linarith), if_pos h]; rfl
  · simp only [fireGradient, List.mem_cons, List.not_mem_nil, or_false] at hp
    rcases hp with rfl | rfl | rfl | rfl | rfl | rfl | rfl | rfl | rfl | rfl | rfl | rfl <;>
      dsimp only at hx <;> subst hx
    · exact ⟨by decide, by rw [getColor, if_pos (le_refl (0:ℚ))]; rfl⟩
    · exact ⟨by decide, by rw [getColor_eval_01]⟩
    · exact ⟨by decide, by rw [getColor_eval_02]⟩
    · exact ⟨by decide, by rw [getColor_eval_03]; decide⟩
    · exact ⟨by decide, by rw [getColor_eval_04]; decide⟩
    · exact ⟨by decide, by rw [getColor_eval_05]; decide⟩
    · exact ⟨by decide, by rw [getColor_eval_06]; decide⟩
    · exact ⟨by decide, by rw [getColor_eval_07]; decide⟩
    · exact ⟨by decide, by rw [getColor_eval_08]; decide⟩
    · exact ⟨by decide, by rw [getColor_eval_09]; decide⟩
    · exact ⟨by decide, by rw [getColor_eval_095]; decide⟩
    · exact ⟨by decide, by rw [getColor, if_neg (by norm_num), if_pos (le_refl (1:ℚ))]; rfl⟩
  · exact ⟨le_of_lt h1, le_of_lt h2⟩

/-- Witness for `getColor_stops_rgb`, discharging its hypotheses at the
boundary intensities and at the stop `0.95`. -/
theorem getColor_stops_rgb_witness :
    getColor fireGradient 0 = "#000000" ∧ getColor fireGradient 1 = "#FFFFFF" ∧
    hexToRgb (getColor fireGradient (95/100)) = hexToRgb "#FFFFAA" :=
  ⟨(getColor_stops_rgb 0).1 le_rfl, (getColor_stops_rgb 1).2.1 le_rfl,
   ((getColor_stops_rgb (95/100)).2.2.1 (95/100, "#FFFFAA")
     (by simp [fireGradient]) rfl).2⟩

/-! ### Data model, from `dataStore.js` and the GeoJSON input contract

A feature has `geometry.coordinates = [lng, lat]` and a `properties`
object whose `location` sub-object (itself possibly absent) carries
`name`, `address` and `country_code`. -/

structure LocationInfo where
  name : Option String
  address : Option String
  country_code : Option String
deriving DecidableEq

structure LocProps where
  location : Option LocationInfo
deriving DecidableEq

structure Feature where
  lng : ℚ
  lat : ℚ
  properties : Option LocProps
deriving DecidableEq

/-- `loc.properties?.location?.country_code || 'Unknown'` from
`dataStore.js` line 95: a missing `properties`, `location` or
`country_code` — or an empty string, which is falsy in JS — yields
`'Unknown'`. -/
def countryOf (f : Feature) : String :=
  match f.properties with
  | none => "Unknown"
  | some p =>
    match p.location with
    | none => "Unknown"
    | some li =>
      match li.country_code with
      | none => "Unknown"
      | some s => if s = "" then "Unknown" else s

/-- First-occurrence deduplication, mirroring `[...new Set(xs)]`
(`dataStore.js` lines 93-97): a JS `Set` iterates in insertion order, so
the spread keeps the first occurrence of each element.  The fuel argument
(`l.length` at the top call) makes the recursion structural. -/
def dedupFirstAux : ℕ → List String → List String
  | _, [] => []
  | 0, l => l
  | f + 1, a :: t => a :: dedupFirstAux f (t.filter (fun b => b != a))

def dedupFirst (l : List String) : List String := dedupFirstAux l.length l

lemma dedupFirstAux_mem :
    ∀ (f : ℕ) (l : List String), l.length ≤ f →
      ∀ x, (x ∈ dedupFirstAux f l ↔ x ∈ l) := by
  intro f
  induction f with
  | zero =>
    intro l hl x
    rw [List.eq_nil_of_length_eq_zero (Nat.le_zero.mp hl)]
    simp [dedupFirstAux]
  | succ f ih =>
    intro l hl x
    cases l with
    | nil => simp [dedupFirstAux]
    | cons a t =>
      have ht : (t.filter (fun b => b != a)).length ≤ f :=
        le_trans (List.length_filter_le _ _) (by simpa using hl)
      simp only [dedupFirstAux, List.mem_cons, ih _ ht, List.mem_filter, bne_iff_ne,
        ne_eq, decide_not, Bool.not_eq_false, decide_eq_true_eq]
      by_cases hxa : x = a <;> simp [hxa]

lemma dedupFirstAux_nodup :
    ∀ (f : ℕ) (l : List String), l.length ≤ f → (dedupFirstAux f l).Nodup := by
  intro f
  induction f with
  | zero =>
    intro l hl
    rw [List.eq_nil_of_length_eq_zero (Nat.le_zero.mp hl)]
    exact List.nodup_nil
  | succ f ih =>
    intro l hl
    cases l with
    | nil => exact List.nodup_nil
    | cons a t =>
      have ht : (t.filter (fun b => b != a)).length ≤ f :=
        le_trans (List.length_filter_le _ _) (by simpa using hl)
      refine List.nodup_cons.mpr ⟨fun ha => ?_, ih _ ht⟩
      have := (dedupFirstAux_mem f _ ht a).mp ha
      simp [List.mem_filter] at this

lemma dedupFirst_length_eq_card (l : List String) :
    (dedupFirst l).length = l.toFinset.card := by
  have hnd : (dedupFirst l).Nodup := dedupFirstAux_nodup _ _ le_rfl
  have hmem : ∀ x, x ∈ dedupFirst l ↔ x ∈ l := dedupFirstAux_mem _ _ le_rfl
  have hfs : (dedupFirst l).toFinset = l.toFinset := by
    apply Finset.ext
    intro x
    simp [List.mem_toFinset, hmem]
  rw [← hfs, List.toFinset_card_of_nodup hnd]

/-- The record returned by the `getStatistics` computed property
(`dataStore.js` lines 91-104). -/
structure Stats where
  total : ℕ
  countries : ℕ
  countryList : List String
deriving DecidableEq

/-- `getStatistics` from `dataStore.js` lines 91-104. -/
def getStatistics (locs : List Feature) : Stats :=
  let countries := dedupFirst (locs.map countryOf)
  { total := locs.length, countries := countries.length, countryList := countries }

/-! ### `loadSavedLocations`, from `dataStore.js` lines 37-56

The single `fetch` of the run is modelled by its outcome; the async body
is the sequence of two states: after the synchronous prefix
(`loading = true`, `error = null`) and after the `try/catch/finally`. -/

inductive FetchOutcome where
  | success (features : Option (List Feature))
  | notOk (status : ℕ)
  | thrown (msg : String)

/-- The message of the error thrown on a non-OK response
(`dataStore.js` line 45). -/
def httpErrorMessage (status : ℕ) : String :=
  "HTTP error! status: " ++ toString status

structure StoreState where
  savedLocations : List Feature
  loading : Bool
  error : Option String
deriving DecidableEq

/-- One run of `loadSavedLocations` under a given fetch outcome: the
result is `(state during the await, state after completion)`.  On success
`savedLocations := data.features || []`; on a non-OK status the thrown
`HTTP error` message is caught and stored; on any thrown error its message
is stored and `savedLocations` is left untouched; the `finally` clears
`loading` on every path.  The function consumes exactly one fetch outcome:
no retry is modelled because the code performs none. -/
def loadStep (st : StoreState) (r : FetchOutcome) : StoreState × StoreState :=
  let mid : StoreState := { st with loading := true, error := none }
  let fin : StoreState :=
    match r with
    | .success fs => { mid with savedLocations := fs.getD [], loading := false }
    | .notOk status => { mid with error := some (httpErrorMessage status), loading := false }
    | .thrown msg => { mid with error := some msg, loading := false }
  (mid, fin)

/-- Three demo features: two with country code `TW`, one with no
`properties` at all (counted as `Unknown`). -/
def demoF1 : Feature :=
  ⟨121, 25, some ⟨some ⟨some "Taipei Main Station", some "Beiping W Rd", some "TW"⟩⟩⟩

def demoF2 : Feature :=
  ⟨120, 23, some ⟨some ⟨some "Tainan Fire Museum", none, some "TW"⟩⟩⟩

def demoF3 : Feature := ⟨10, 50, none⟩

def demoFeatures : List Feature := [demoF1, demoF2, demoF3]

/-- Claim C2: `getStatistics` reports `total` equal to the number of
loaded features and `countries` equal to the number of distinct country
codes (features without a code all counted under the single code
`Unknown`); a successful load stores exactly the file's `features` array;
and on the three-feature demo list the summary is
`total = 3, countries = 2`. -/
theorem getStatistics_spec (locs : List Feature) :
    (getStatistics locs).total = locs.length ∧
    (getStatistics locs).countries = (locs.map countryOf).toFinset.card ∧
    (∀ st fs, ((loadStep st (.success (some fs))).2).savedLocations = fs) ∧
    (getStatistics demoFeatures).total = 3 ∧
    (getStatistics demoFeatures).countries = 2 := by
  refine ⟨rfl, ?_, fun st fs => rfl, rfl, ?_⟩
  · exact dedupFirst_length_eq_card _
  · show (dedupFirst (demoFeatures.map countryOf)).length = 2
    decide

/-- Claim C6: a failing fetch (non-OK status or thrown error) stores the
error message, clears the loading flag, leaves `savedLocations` unchanged
(one fetch, no retry, is modelled because the code performs exactly one);
on every outcome `loading` is `true` during the run and `false` after it. -/
theorem loadSavedLocations_error_spec (st : StoreState) (status : ℕ) (msg : String) :
    ((loadStep st (.notOk status)).2.error = some (httpErrorMessage status) ∧
     (loadStep st (.notOk status)).2.loading = false ∧
     (loadStep st (.notOk status)).2.savedLocations = st.savedLocations) ∧
    ((loadStep st (.thrown msg)).2.error = some msg ∧
     (loadStep st (.thrown msg)).2.loading = false ∧
     (loadStep st (.thrown msg)).2.savedLocations = st.savedLocations) ∧
    (∀ r, (loadStep st r).1.loading = true ∧ (loadStep st r).2.loading = false) := by
  refine ⟨⟨rfl, rfl, rfl⟩, ⟨rfl, rfl, rfl⟩, fun r => ?_⟩
  cases r <;> exact ⟨rfl, rfl⟩

/-! ### `searchLocations`, from `dataStore.js` lines 75-86 -/

/-- `location.properties?.location?.name || ''`. -/
def locName (f : Feature) : String :=
  match f.properties with
  | none => ""
  | some p =>
    match p.location with
    | none => ""
    | some li => li.name.getD ""

/-- `location.properties?.location?.address || ''`. -/
def locAddress (f : Feature) : String :=
  match f.properties with
  | none => ""
  | some p =>
    match p.location with
    | none => ""
    | some li => li.address.getD ""

/-- JS `toLowerCase`, characterwise. -/
def strLower (s : String) : String := String.mk (s.data.map Char.toLower)

/-- Prefix test on character lists (structural, so it evaluates). -/
def isPrefixOfB : List Char → List Char → Bool
  | [], _ => true
  | _ :: _, [] => false
  | a :: t, b :: u => a == b && isPrefixOfB t u

/-- Contiguous-occurrence test on character lists. -/
def isInfixOfB (needle : List Char) : List Char → Bool
  | [] => isPrefixOfB needle []
  | c :: t => isPrefixOfB needle (c :: t) || isInfixOfB needle t

lemma isPrefixOfB_iff : ∀ l₁ l₂ : List Char, isPrefixOfB l₁ l₂ = true ↔ l₁ <+: l₂ := by
  intro l₁
  induction l₁ with
  | nil => intro l₂; simp [isPrefixOfB]
  | cons a t ih =>
    intro l₂
    cases l₂ with
    | nil => simp [isPrefixOfB]
    | cons b u =>
      show (a == b && isPrefixOfB t u) = true ↔ _
      rw [Bool.and_eq_true, beq_iff_eq, ih, List.cons_prefix_cons]

lemma isInfixOfB_iff (l₁ : List Char) : ∀ l₂, isInfixOfB l₁ l₂ = true ↔ l₁ <:+: l₂ := by
  intro l₂
  induction l₂ with
  | nil => simp [isInfixOfB, isPrefixOfB_iff]
  | cons b u ih =>
    rw [isInfixOfB, Bool.or_eq_true, isPrefixOfB_iff, ih, List.infix_cons_iff]

/-- JS `String.prototype.includes`: the needle occurs contiguously in the
haystack. -/
def strIncludes (s sub : String) : Bool := isInfixOfB sub.data s.data

/-- `searchLocations` from `dataStore.js` lines 75-86: a falsy (empty)
query returns the stored list itself; otherwise the list is filtered to
the locations whose name or address contains the query
case-insensitively. -/
def searchLocations (locs : List Feature) (query : String) : List Feature :=
  if query = "" then locs
  else
    locs.filter (fun location =>
      strIncludes (strLower (locName location)) (strLower query) ||
      strIncludes (strLower (locAddress location)) (strLower query))

/-- Claim C9: an empty query returns the whole list unchanged; a non-empty
query returns exactly the locations whose lowercased name or address
contains the lowercased query, in their original order (the result is a
sublist of the input). -/
theorem searchLocations_spec (locs : List Feature) (q : String) :
    searchLocations locs "" = locs ∧
    (q ≠ "" →
      (searchLocations locs q).Sublist locs ∧
      ∀ l, l ∈ searchLocations locs q ↔
        l ∈ locs ∧ ((strLower q).data <:+: (strLower (locName l)).data ∨
                    (strLower q).data <:+: (strLower (locAddress l)).data)) := by
  constructor
  · rw [searchLocations, if_pos rfl]
  · intro hq
    rw [searchLocations, if_neg hq]
    refine ⟨List.filter_sublist _, fun l => ?_⟩
    rw [List.mem_filter]
    simp [strIncludes, isInfixOfB_iff]

/-- Witness for `searchLocations_spec`: the query `"tain"` selects exactly
the demo feature whose name lowercases to `"tainan fire museum"`. -/
theorem searchLocations_spec_witness :
    (searchLocations demoFeatures "tain").Sublist demoFeatures ∧
    demoF2 ∈ searchLocations demoFeatures "tain" := by
  have h := (searchLocations_spec demoFeatures "tain").2 (by decide)
  exact ⟨h.1, (h.2 demoF2).mpr
    ⟨by simp [demoFeatures], Or.inl ((isInfixOfB_iff _ _).mp (by decide))⟩⟩

/-! ### Heatmap intensity, from `displayHeatmap`
(`MapTab.vue` lines 556-561 and 1322-1327)

`dataStore.savedLocations.map((location, index) => ... Math.min(1,
(index + 1) / dataStore.savedLocations.length) ...)`. -/

structure HeatPoint where
  lng : ℚ
  lat : ℚ
  intensity : ℚ
deriving DecidableEq

/-- The indexed map of `displayHeatmap`, with the running index explicit
(`n` is the full list length, fixed before the traversal starts). -/
def heatDataAux (n : ℕ) : ℕ → List Feature → List HeatPoint
  | _, [] => []
  | i, f :: t =>
    { lng := f.lng, lat := f.lat,
      intensity := min 1 (((i + 1 : ℕ) : ℚ) / (n : ℚ)) } :: heatDataAux n (i + 1) t

def heatData (locs : List Feature) : List HeatPoint := heatDataAux locs.length 0 locs

lemma heatDataAux_getElem? (n : ℕ) :
    ∀ (i : ℕ) (l : List Feature) (j : ℕ),
      (heatDataAux n i l)[j]? = (l[j]?).map
        (fun f => { lng := f.lng, lat := f.lat,
                    intensity := min 1 (((i + j + 1 : ℕ) : ℚ) / (n : ℚ)) }) := by
  intro i l
  induction l generalizing i with
  | nil => intro j; simp [heatDataAux]
  | cons f t ih =>
    intro j
    cases j with
    | zero => simp [heatDataAux]
    | succ j =>
      simp only [heatDataAux, List.getElem?_cons_succ, ih (i + 1) j]
      have : i + 1 + j + 1 = i + (j + 1) + 1 := by omega
      rw [this]

/-- Claim C10: for a non-empty list of `n` locations, the heat point at
index `i` carries intensity `min 1 ((i + 1) / n)`, which is strictly
positive and at most `1`, equals `1` at the last index, sits at the
feature's coordinates, and depends only on the index and the list length —
not on any property of the record. -/
theorem heatmap_intensity_spec (locs : List Feature) (i : ℕ)
    (hne : locs ≠ []) (hi : i < locs.length) :
    ∃ hp, (heatData locs)[i]? = some hp ∧
      hp.intensity = min 1 (((i + 1 : ℕ) : ℚ) / (locs.length : ℚ)) ∧
      0 < hp.intensity ∧ hp.intensity ≤ 1 ∧
      (i = locs.length - 1 → hp.intensity = 1) ∧
      hp.lng = (locs.get ⟨i, hi⟩).lng ∧ hp.lat = (locs.get ⟨i, hi⟩).lat ∧
      (∀ locs2 : List Feature, locs2.length = locs.length →
        ∀ hp2, (heatData locs2)[i]? = some hp2 → hp2.intensity = hp.intensity) := by
  have hlen : 0 < locs.length := List.length_pos.mpr hne
  have hlenq : (0 : ℚ) < (locs.length : ℚ) := by exact_mod_cast hlen
  have hget : locs[i]? = some (locs.get ⟨i, hi⟩) := by
    rw [List.getElem?_eq_getElem hi]
    rfl
  have hmain : (heatData locs)[i]? = some
      ⟨(locs.get ⟨i, hi⟩).lng, (locs.get ⟨i, hi⟩).lat,
        min 1 (((i + 1 : ℕ) : ℚ) / (locs.length : ℚ))⟩ := by
    rw [heatData, heatDataAux_getElem?, hget, Option.map_some']
    norm_num
  refine ⟨_, hmain, rfl, ?_, ?_, ?_, rfl, rfl, ?_⟩
  · refine lt_min one_pos (div_pos ?_ hlenq)
    exact_mod_cast Nat.succ_pos i
  · exact min_le_left _ _
  · intro h
    have he : (i + 1 : ℕ) = locs.length := by omega
    show min 1 (((i + 1 : ℕ) : ℚ) / (locs.length : ℚ)) = 1
    rw [he, div_self (ne_of_gt hlenq), min_self]
  · intro locs2 hlen2 hp2 h2
    rw [heatData, hlen2, heatDataAux_getElem?] at h2
    have hi2 : i < locs2.length := hlen2 ▸ hi
    rw [List.getElem?_eq_getElem hi2, Option.map_some', Option.some_inj] at h2
    rw [← h2]
    norm_num

/-- Witness for `heatmap_intensity_spec` on the three-feature demo list at
its last index. -/
theorem heatmap_intensity_spec_witness :
    ∃ hp, (heatData demoFeatures)[2]? = some hp ∧ hp.intensity = 1 := by
  obtain ⟨hp, h1, -, -, -, hlast, -⟩ :=
    heatmap_intensity_spec demoFeatures 2 (by decide) (by decide)
  exact ⟨hp, h1, hlast rfl⟩

end FireMap

namespace FireMap

/-! ### Map initialization retry loop, from `initMap`
(`MapTab.vue` lines 817-845)

`attempts` starts at `0`, `maxAttempts = 20`; `tryCreateMap` first checks
`attempts >= maxAttempts` (give up, log only, schedule nothing), then
increments and calls `createMap()`; on failure it schedules itself again
after a fixed 100 ms delay.  `createMap` (lines 78-131) returns `false`
exactly when the container is missing or reports zero size (or map
construction throws); the environment `env k` abstracts whether the `k`-th
`createMap` call succeeds.  Timing is not modelled; the recursion is the
chain of retries. -/

def maxAttempts : ℕ := 20

/-- One run of the `tryCreateMap` retry chain starting at a given attempt
counter: `some k` means the map was created on the `k`-th `createMap` call
(after which loading is scheduled once), `none` means the chain gave up
permanently after exhausting the attempt bound, scheduling nothing.
Totality of this definition is the termination of initialization. -/
def tryCreateMap (env : ℕ → Bool) (attempts : ℕ) : Option ℕ :=
  if _h : maxAttempts ≤ attempts then none
  else if env (attempts + 1) then some (attempts + 1)
  else tryCreateMap env (attempts + 1)
termination_by maxAttempts - attempts
decreasing_by simp only [maxAttempts] at *; omega

def initMap (env : ℕ → Bool) : Option ℕ := tryCreateMap env 0

lemma tryCreateMap_some_iff (env : ℕ → Bool) :
    ∀ (a k : ℕ), (tryCreateMap env a = some k ↔
      (a < k ∧ k ≤ maxAttempts ∧ env k = true ∧
        ∀ j, a < j → j < k → env j = false)) := by
  have main : ∀ (fuel a : ℕ), maxAttempts - a ≤ fuel → ∀ k,
      (tryCreateMap env a = some k ↔
        (a < k ∧ k ≤ maxAttempts ∧ env k = true ∧
          ∀ j, a < j → j < k → env j = false)) := by
    intro fuel
    induction fuel with
    | zero =>
      intro a ha k
      have h20 : maxAttempts ≤ a := by omega
      rw [tryCreateMap, dif_pos h20]
      constructor
      · intro h; exact absurd h (by simp)
      · rintro ⟨h1, h2, -, -⟩; omega
    | succ fuel ih =>
      intro a ha k
      rw [tryCreateMap]
      by_cases h20 : maxAttempts ≤ a
      · rw [dif_pos h20]
        constructor
        · intro h; exact absurd h (by simp)
        · rintro ⟨h1, h2, -, -⟩; omega
      · rw [dif_neg h20]
        by_cases he : env (a + 1) = true
        · rw [if_pos he]
          constructor
          · intro h
            obtain rfl : a + 1 = k := by simpa using h
            exact ⟨by omega, by omega, he, fun j hj1 hj2 => by omega⟩
          · rintro ⟨h1, h2, h3, h4⟩
            have : k = a + 1 := by
              by_contra hne
              have : a + 1 < k := by omega
              have := h4 (a + 1) (by omega) this
              rw [he] at this
              exact Bool.true_eq_false.mp this
            simp [this]
        · rw [if_neg he]
          rw [ih (a + 1) (by omega) k]
          have henv : env (a + 1) = false := by
            cases hb : env (a + 1)
            · rfl
            · exact absurd hb he
          constructor
          · rintro ⟨h1, h2, h3, h4⟩
            refine ⟨by omega, h2, h3, fun j hj1 hj2 => ?_⟩
            rcases Nat.eq_or_lt_of_le hj1 with rfl | hlt
            · exact henv
            · exact h4 j hlt hj2
          · rintro ⟨h1, h2, h3, h4⟩
            have hk : a + 1 < k := by
              rcases Nat.eq_or_lt_of_le h1 with rfl | hlt
              · rw [h3] at henv; exact absurd henv (by simp)
              · exact hlt
            exact ⟨hk, h2, h3, fun j hj1 hj2 => h4 j (by omega) hj2⟩
  intro a k
  exact main (maxAttempts - a) a le_rfl k

lemma tryCreateMap_none_iff (env : ℕ → Bool) :
    ∀ (a : ℕ), (tryCreateMap env a = none ↔
      ∀ j, a < j → j ≤ maxAttempts → env j = false) := by
  have main : ∀ (fuel a : ℕ), maxAttempts - a ≤ fuel →
      (tryCreateMap env a = none ↔
        ∀ j, a < j → j ≤ maxAttempts → env j = false) := by
    intro fuel
    induction fuel with
    | zero =>
      intro a ha
      have h20 : maxAttempts ≤ a := by omega
      rw [tryCreateMap, dif_pos h20]
      simp only [true_iff]
      intro j hj1 hj2
      exact absurd (lt_of_lt_of_le hj1 hj2) (by omega)
    | succ fuel ih =>
      intro a ha
      rw [tryCreateMap]
      by_cases h20 : maxAttempts ≤ a
      · rw [dif_pos h20]
        simp only [true_iff]
        intro j hj1 hj2
        exact absurd (lt_of_lt_of_le hj1 hj2) (by omega)
      · rw [dif_neg h20]
        by_cases he : env (a + 1) = true
        · rw [if_pos he]
          simp only [reduceCtorEq, false_iff]
          push_neg
          refine ⟨a + 1, by omega, by omega, by simp [he]⟩
        · rw [if_neg he]
          rw [ih (a + 1) (by omega)]
          have henv : env (a + 1) = false := by
            cases hb : env (a + 1)
            · rfl
            · exact absurd hb he
          constructor
          · intro h j hj1 hj2
            rcases Nat.eq_or_lt_of_le hj1 with hj | hlt
            · rw [← hj]; exact henv
            · exact h j hlt hj2
          · intro h j hj1 hj2
            exact h j (by omega) hj2
  intro a
  exact main (maxAttempts - a) a le_rfl

/-- Claim C5: `initMap` reaches the ready state exactly when some attempt
`k ≤ 20` is the first on which `createMap` sees a usable (non-zero-size)
container; it makes at most 20 attempts; and when every attempt within the
bound fails it gives up permanently with result `none` (logging only,
scheduling no further retry).  Totality of `tryCreateMap` is
initialization termination. -/
theorem initMap_bounded_retry (env : ℕ → Bool) :
    (∀ k, initMap env = some k ↔
      (1 ≤ k ∧ k ≤ maxAttempts ∧ env k = true ∧
        ∀ j, 1 ≤ j → j < k → env j = false)) ∧
    (initMap env = none ↔ ∀ j, 1 ≤ j → j ≤ maxAttempts → env j = false) := by
  constructor
  · intro k
    rw [initMap, tryCreateMap_some_iff]
    constructor
    · rintro ⟨h1, h2, h3, h4⟩
      exact ⟨h1, h2, h3, fun j hj1 hj2 => h4 j hj1 hj2⟩
    · rintro ⟨h1, h2, h3, h4⟩
      exact ⟨h1, h2, h3, fun j hj1 hj2 => h4 j hj1 hj2⟩
  · rw [initMap, tryCreateMap_none_iff]
    constructor
    · intro h j hj1 hj2
      exact h j hj1 hj2
    · intro h j hj1 hj2
      exact h j hj1 hj2

/-- Witness for `initMap_bounded_retry`: a container that is ready on the
first attempt initializes on attempt 1; a container that never becomes
ready makes the loop give up. -/
theorem initMap_bounded_retry_witness :
    initMap (fun j => j == 1) = some 1 ∧ initMap (fun _ => false) = none :=
  ⟨((initMap_bounded_retry (fun j => j == 1)).1 1).mpr
      ⟨le_rfl, by simp [maxAttempts], by simp,
        fun j hj1 hj2 => absurd (lt_of_le_of_lt hj1 hj2) (lt_irrefl 1)⟩,
    (initMap_bounded_retry (fun _ => false)).2.mpr (fun j _ _ => rfl)⟩

end FireMap

namespace FireMap

/-! ### Layer detach lifecycle, from `D3PointLayer.onRemove`
(`MapTab.vue` lines 398-414) and `D3HeatmapLayer.onRemove` (lines 598-607)

The Leaflet map state relevant to `onRemove` is the set of registered
`(event, handler)` subscriptions and the set of layers currently on the
map (the tooltips the point layer may have added).  Leaflet's `map.off`
removes every matching subscription and is a no-op when none is present;
`map.removeLayer` is a no-op when the layer is not on the map; d3's
`selection.remove()` detaches the node and is a no-op on an already
detached node; `removeChild` is guarded by `canvas.parentNode`. -/

/-- The four viewport events both layers subscribe `_reset` to. -/
inductive MapEvt where
  | viewreset
  | move
  | zoom
  | resize
deriving DecidableEq

structure LMap where
  handlers : List (MapEvt × ℕ)
  layers : List ℕ
deriving DecidableEq

/-- `map.off(evt, handler, ctx)`: drop every subscription of this handler
to this event (no-op when absent). -/
def mapOff (m : LMap) (e : MapEvt) (h : ℕ) : LMap :=
  { m with handlers := m.handlers.filter (fun p => !(p.1 == e && p.2 == h)) }

/-- `map.removeLayer(layer)`: no-op when the layer is not on the map. -/
def removeLayer (m : LMap) (lid : ℕ) : LMap :=
  { m with layers := m.layers.filter (fun x => x != lid) }

/-- The four `map.off` calls both `onRemove` bodies start with. -/
def offAllReset (m : LMap) (hid : ℕ) : LMap :=
  mapOff (mapOff (mapOff (mapOff m .viewreset hid) .move hid) .zoom hid) .resize hid

/-- `D3PointLayer` state touched by its `onRemove`: its `_reset` handler
identity, the `_tooltips` map (never cleared by `onRemove`), and whether
its SVG node is in the DOM. -/
structure PointLayer where
  resetId : ℕ
  tooltips : List ℕ
  svgInDom : Bool
deriving DecidableEq

/-- `D3PointLayer.onRemove` (lines 398-414): four `map.off` calls, then
`map.removeLayer` on every recorded tooltip, then `this._svg.remove()`
(a no-op when the node was already detached). -/
def pointOnRemove (m : LMap) (l : PointLayer) : LMap × PointLayer :=
  let m1 := offAllReset m l.resetId
  let m2 := l.tooltips.foldl removeLayer m1
  (m2, { l with svgInDom := false })

/-- `D3HeatmapLayer` state touched by its `onRemove`. -/
structure HeatLayer where
  resetId : ℕ
  canvasAttached : Bool
deriving DecidableEq

/-- `D3HeatmapLayer.onRemove` (lines 598-607): four `map.off` calls, then
`if (this._canvas && this._canvas.parentNode)
removeChild(this._canvas)` — the guard makes the second call skip the
removal instead of throwing. -/
def heatOnRemove (m : LMap) (l : HeatLayer) : LMap × HeatLayer :=
  let m1 := offAllReset m l.resetId
  (m1, if l.canvasAttached then { l with canvasAttached := false } else l)

/-- The handlers the map would invoke on event `e`. -/
def fireHandlers (m : LMap) (e : MapEvt) : List ℕ :=
  (m.handlers.filter (fun p => p.1 == e)).map (fun p => p.2)

lemma filter_idem {α : Type} (p : α → Bool) (l : List α) :
    (l.filter p).filter p = l.filter p := by
  induction l with
  | nil => rfl
  | cons a t ih =>
    by_cases h : p a
    · simp [List.filter_cons, h, ih]
    · simp [List.filter_cons, h, ih]

lemma offAllReset_handlers (m : LMap) (hid : ℕ) :
    (offAllReset m hid).handlers = m.handlers.filter (fun p => p.2 != hid) := by
  show ((((m.handlers.filter _).filter _).filter _).filter _) = _
  rw [List.filter_filter, List.filter_filter, List.filter_filter]
  apply List.filter_congr
  rintro ⟨e, i⟩ -
  cases e <;> cases hi : (i == hid) <;> simp_all

lemma offAllReset_layers (m : LMap) (hid : ℕ) :
    (offAllReset m hid).layers = m.layers := rfl

lemma foldl_removeLayer_handlers (ids : List ℕ) (m : LMap) :
    (ids.foldl removeLayer m).handlers = m.handlers := by
  induction ids generalizing m with
  | nil => rfl
  | cons a t ih => exact ih (removeLayer m a)

lemma foldl_removeLayer_layers (ids : List ℕ) (m : LMap) :
    (ids.foldl removeLayer m).layers =
      m.layers.filter (fun x => !(ids.contains x)) := by
  induction ids generalizing m with
  | nil => simp
  | cons a t ih =>
    show (t.foldl removeLayer (removeLayer m a)).layers = _
    rw [ih]
    show (m.layers.filter _).filter _ = _
    rw [List.filter_filter]
    apply List.filter_congr
    intro x _
    cases hxa : (x == a) <;> simp [List.contains_cons, hxa, bne] <;> simp_all

lemma lMapExt {m1 m2 : LMap} (h1 : m1.handlers = m2.handlers)
    (h2 : m1.layers = m2.layers) : m1 = m2 := by
  cases m1
  cases m2
  cases h1
  cases h2
  rfl

lemma pointOnRemove_eq (m : LMap) (l : PointLayer) :
    pointOnRemove m l =
      ({ handlers := m.handlers.filter (fun p => p.2 != l.resetId),
         layers := m.layers.filter (fun x => !(l.tooltips.contains x)) },
       ⟨l.resetId, l.tooltips, false⟩) := by
  refine Prod.ext_iff.mpr ⟨lMapExt ?_ ?_, rfl⟩
  · show (l.tooltips.foldl removeLayer (offAllReset m l.resetId)).handlers = _
    rw [foldl_removeLayer_handlers, offAllReset_handlers]
  · show (l.tooltips.foldl removeLayer (offAllReset m l.resetId)).layers = _
    rw [foldl_removeLayer_layers, offAllReset_layers]

lemma heatOnRemove_eq (m : LMap) (l : HeatLayer) :
    heatOnRemove m l =
      ({ m with handlers := m.handlers.filter (fun p => p.2 != l.resetId) },
       ⟨l.resetId, false⟩) := by
  obtain ⟨r, ca⟩ := l
  refine Prod.ext_iff.mpr ⟨lMapExt ?_ rfl, ?_⟩
  · show (offAllReset m r).handlers = _
    rw [offAllReset_handlers]
  · cases ca <;> rfl

/-- Claim C3: for both overlay layer classes, calling `onRemove` twice is
the same as calling it once (both transition functions are total, so
nothing throws), and after the first `onRemove` no event of the map
invokes the layer's `_reset` handler any more.  The drawing-surface flag
is detached by the first call and the second call changes nothing, so the
surface is removed exactly once. -/
theorem detach_idempotent (m1 m2 : LMap) (l : PointLayer) (hl : HeatLayer) :
    (pointOnRemove (pointOnRemove m1 l).1 (pointOnRemove m1 l).2 =
      pointOnRemove m1 l) ∧
    (heatOnRemove (heatOnRemove m2 hl).1 (heatOnRemove m2 hl).2 =
      heatOnRemove m2 hl) ∧
    (∀ e, l.resetId ∉ fireHandlers (pointOnRemove m1 l).1 e) ∧
    (∀ e, hl.resetId ∉ fireHandlers (heatOnRemove m2 hl).1 e) ∧
    ((pointOnRemove m1 l).2.svgInDom = false ∧
      (heatOnRemove m2 hl).2.canvasAttached = false) := by
  refine ⟨?_, ?_, ?_, ?_, ?_, ?_⟩
  · rw [pointOnRemove_eq m1 l]
    dsimp only
    rw [pointOnRemove_eq]
    dsimp only
    rw [filter_idem, filter_idem]
  · rw [heatOnRemove_eq m2 hl]
    dsimp only
    rw [heatOnRemove_eq]
    dsimp only
    rw [filter_idem]
  · intro e
    rw [pointOnRemove_eq]
    dsimp only
    simp only [fireHandlers, List.mem_map, List.mem_filter]
    rintro ⟨p, ⟨⟨hmem, hne⟩, he⟩, hp⟩
    rw [hp] at hne
    simp at hne
  · intro e
    rw [heatOnRemove_eq]
    dsimp only
    simp only [fireHandlers, List.mem_map, List.mem_filter]
    rintro ⟨p, ⟨⟨hmem, hne⟩, he⟩, hp⟩
    rw [hp] at hne
    simp at hne
  · rw [pointOnRemove_eq]
  · rw [heatOnRemove_eq]

/-- Witness for `detach_idempotent` at a concrete attached state. -/
theorem detach_idempotent_witness :
    pointOnRemove
        (pointOnRemove ⟨[(.viewreset, 7), (.move, 7)], [3]⟩ ⟨7, [3], true⟩).1
        (pointOnRemove ⟨[(.viewreset, 7), (.move, 7)], [3]⟩ ⟨7, [3], true⟩).2 =
      pointOnRemove ⟨[(.viewreset, 7), (.move, 7)], [3]⟩ ⟨7, [3], true⟩ ∧
    (7 : ℕ) ∉ fireHandlers
      (pointOnRemove ⟨[(.viewreset, 7), (.move, 7)], [3]⟩ ⟨7, [3], true⟩).1 .move :=
  ⟨(detach_idempotent ⟨[(.viewreset, 7), (.move, 7)], [3]⟩ ⟨[], []⟩
      ⟨7, [3], true⟩ ⟨0, true⟩).1,
   (detach_idempotent ⟨[(.viewreset, 7), (.move, 7)], [3]⟩ ⟨[], []⟩
      ⟨7, [3], true⟩ ⟨0, true⟩).2.2.1 .move⟩

end FireMap

namespace FireMap

/-! ### Teardown and pending timers, from `onUnmounted`
(`MapTab.vue` lines 878-896), `initMap` (lines 817-845), `invalidateSize`
(lines 805-811), `setupResizeObserver` (lines 851-867) and the delayed
`bringToBack` calls (lines 1195-1204, 1298-1307, 1336-1345)

The component creates five kinds of `setTimeout` timers.  Only the
debounced-resize timer's id is kept (in `resizeTimeout`); the ids returned
by the `setTimeout` calls in `initMap` (the 100 ms retry and the 500 ms
data-load timer), `invalidateSize` and the 50/100 ms `bringToBack` timers
are discarded, so `onUnmounted` — which calls `clearTimeout(resizeTimeout)`
and `resizeObserver.disconnect()` — cannot cancel them. -/

inductive TKind where
  | initRetry
  | dataLoad
  | bringToBack
  | invalidate
  | resizeDebounce
deriving DecidableEq

/-- Which timers `onUnmounted` clears: exactly the debounced-resize timer
(`clearTimeout(resizeTimeout)`, line 879-881); the other timers' ids were
discarded at their `setTimeout` call sites. -/
def clearedOnUnmount : TKind → Bool
  | .resizeDebounce => true
  | _ => false

/-- Event-loop events: a callback schedules a timer, the component
unmounts, a scheduled timer fires. -/
inductive Ev where
  | sched (t : TKind)
  | unmount
  | fire (t : TKind)

structure LoopState where
  pending : List TKind
  down : Bool
  firedAfterDown : List TKind
deriving DecidableEq

/-- One event-loop step.  `unmount` runs `onUnmounted`: it clears exactly
the timers in `clearedOnUnmount` and disconnects the resize observer, so
after it no new `resizeDebounce` timer can be scheduled (that timer is
only ever scheduled from the observer callback); surviving callbacks
(e.g. the retry chain) may still schedule other timers.  A `fire` of a
pending timer removes it and, when it happens after unmount, records that
component work ran after teardown. -/
def step (s : LoopState) : Ev → LoopState
  | .sched t =>
    if s.down = true ∧ t = .resizeDebounce then s
    else { s with pending := t :: s.pending }
  | .unmount =>
    { pending := s.pending.filter (fun t => !(clearedOnUnmount t)),
      down := true,
      firedAfterDown := s.firedAfterDown }
  | .fire t =>
    if t ∈ s.pending then
      { pending := s.pending.erase t,
        down := s.down,
        firedAfterDown :=
          if s.down = true then t :: s.firedAfterDown else s.firedAfterDown }
    else s

def runTrace (evs : List Ev) : LoopState := evs.foldl step ⟨[], false, []⟩

/-- Claim C4, counterexample: schedule the 500 ms data-load timer (as
`initMap` does after `createMap` succeeds) and then unmount.  After the
teardown the timer is still pending, and when it fires its callback runs
after teardown — the interleaving the claim says cannot happen. -/
theorem teardown_pending_counterexample :
    (runTrace [.sched .dataLoad, .unmount]).down = true ∧
    (runTrace [.sched .dataLoad, .unmount]).pending ≠ [] ∧
    (runTrace [.sched .dataLoad, .unmount, .fire .dataLoad]).firedAfterDown =
      [.dataLoad] := by
  refine ⟨rfl, ?_, ?_⟩ <;> simp [runTrace, step, clearedOnUnmount]

/-- The teardown invariant: once down, no debounce timer pending, and the
debounce callback never ran after teardown. -/
def ResizeInv (s : LoopState) : Prop :=
  (s.down = true → TKind.resizeDebounce ∉ s.pending) ∧
    TKind.resizeDebounce ∉ s.firedAfterDown

lemma step_resizeInv (s : LoopState) (e : Ev) (h : ResizeInv s) :
    ResizeInv (step s e) := by
  obtain ⟨h2, h1⟩ := h
  cases e with
  | sched t =>
    by_cases hc : s.down = true ∧ t = .resizeDebounce
    · simp only [step, if_pos hc]
      exact ⟨h2, h1⟩
    · simp only [step, if_neg hc]
      refine ⟨?_, h1⟩
      intro hd hmem
      rcases List.mem_cons.mp hmem with heq | hm2
      · exact hc ⟨hd, heq.symm⟩
      · exact h2 hd hm2
  | unmount =>
    simp only [step]
    refine ⟨?_, h1⟩
    intro _ hmem
    rw [List.mem_filter] at hmem
    exact absurd hmem.2 (by simp [clearedOnUnmount])
  | fire t =>
    by_cases hc : t ∈ s.pending
    · simp only [step, if_pos hc]
      constructor
      · intro hd hmem
        exact h2 hd (List.mem_of_mem_erase hmem)
      · by_cases hd : s.down = true
        · rw [if_pos hd]
          intro hmem
          rcases List.mem_cons.mp hmem with heq | hm2
          · exact h2 hd (by rw [heq]; exact hc)
          · exact h1 hm2
        · rw [if_neg hd]
          exact h1
    · simp only [step, if_neg hc]
      exact ⟨h2, h1⟩

lemma foldl_resizeInv (evs : List Ev) :
    ∀ s : LoopState, ResizeInv s → ResizeInv (evs.foldl step s) := by
  induction evs with
  | nil => exact fun s h => h
  | cons e rest ih => exact fun s h => ih (step s e) (step_resizeInv s e h)

/-- Claim C4 (amended): teardown cancels only the debounced-resize timer
(the only timer whose id is stored) and disconnects the resize observer,
so after teardown no debounced-resize redraw ever fires and none stays
pending; the retry, data-load, `bringToBack` and `invalidateSize` timers
are not cancelled and may fire after teardown (their callbacks'
map mutations are guarded or caught, but they do run). -/
theorem teardown_cancels_resize_only (evs : List Ev) :
    TKind.resizeDebounce ∉ (runTrace evs).firedAfterDown ∧
    ((runTrace evs).down = true →
      TKind.resizeDebounce ∉ (runTrace evs).pending) := by
  have h := foldl_resizeInv evs ⟨[], false, []⟩ ⟨by simp, by simp⟩
  exact ⟨h.2, h.1⟩

/-- Witness for `teardown_cancels_resize_only`: on the trace that
schedules the debounce timer, unmounts, then tries to fire it, the timer
neither fires after teardown nor stays pending. -/
theorem teardown_cancels_resize_only_witness :
    TKind.resizeDebounce ∉
      (runTrace [.sched .resizeDebounce, .unmount,
        .fire .resizeDebounce]).firedAfterDown ∧
    TKind.resizeDebounce ∉
      (runTrace [.sched .resizeDebounce, .unmount]).pending :=
  ⟨(teardown_cancels_resize_only _).1,
   (teardown_cancels_resize_only [.sched .resizeDebounce, .unmount]).2 rfl⟩

end FireMap

namespace FireMap

/-! ### Redraw and projection filtering, from `D3PointLayer._reset`
(`MapTab.vue` lines 416-437), `D3PointLayer._render` (lines 439-486) and
`D3HeatmapLayer._render` (lines 695-700)

`_reset` recomputes the shared projection's parameters from the current
viewport — `center([center.lng, center.lat])`,
`scale(Math.pow(2, zoom) * 100)`, `translate([size.x / 2, size.y / 2])` —
then calls `_render`.  The projection itself is the external
`d3.geoConicEqualArea()`, which may return `null` or non-finite pixel
coordinates near its singularities; it is therefore a parameter of the
model, returning an `Option` of possibly-non-finite JS numbers. -/

inductive JsNum where
  | fin (q : ℚ)
  | nan
  | posInf
  | negInf
deriving DecidableEq

def JsNum.isFinite : JsNum → Bool
  | .fin _ => true
  | _ => false

structure ProjParams where
  center : ℚ × ℚ
  scale : ℚ
  translate : ℚ × ℚ
deriving DecidableEq

structure Viewport where
  centerLng : ℚ
  centerLat : ℚ
  zoom : ℤ
  sizeX : ℚ
  sizeY : ℚ
deriving DecidableEq

/-- The parameter update performed by every `_reset`
(lines 426-430): `center`, `scale = 2^zoom * 100`,
`translate = (size.x / 2, size.y / 2)`. -/
def resetParams (v : Viewport) : ProjParams :=
  { center := (v.centerLng, v.centerLat),
    scale := (2 : ℚ) ^ v.zoom * 100,
    translate := (v.sizeX / 2, v.sizeY / 2) }

/-- A configured projection: parameters, then a geographic point, to an
optional pair of pixel coordinates (each possibly `NaN`/`Infinity`). -/
def Proj : Type := ProjParams → ℚ × ℚ → Option (JsNum × JsNum)

/-- How rendered points appear after `_render` (lines 463-472): hidden via
`display: none`, or shown at the projected position. -/
inductive RenderDisp where
  | hidden
  | shown (x y : ℚ)
deriving DecidableEq

/-- The per-point body of `D3PointLayer._render`:
`projected = projection([d.lng, d.lat]); if (!projected ||
!isFinite(projected[0]) || !isFinite(projected[1])) display none; else
cx, cy := projected`. -/
def renderOne (proj : ℚ × ℚ → Option (JsNum × JsNum)) (d : Feature) : RenderDisp :=
  match proj (d.lng, d.lat) with
  | none => .hidden
  | some (px, py) =>
    match px, py with
    | .fin x, .fin y => .shown x y
    | _, _ => .hidden

/-- `_reset` followed by `_render` for the point layer: recompute the
projection parameters from the current viewport, then render every data
point. -/
def pointReset (projF : Proj) (v : Viewport) (data : List Feature) :
    List (Feature × RenderDisp) :=
  data.map (fun d => (d, renderOne (projF (resetParams v)) d))

/-- `D3HeatmapLayer._render` (lines 695-700) skips — draws nothing for —
every point whose projection is `null` or non-finite, and draws the rest
at their projected position. -/
def heatDrawn (projF : Proj) (v : Viewport) (hdata : List HeatPoint) :
    List (HeatPoint × ℚ × ℚ) :=
  hdata.filterMap (fun p =>
    match projF (resetParams v) (p.lng, p.lat) with
    | some (JsNum.fin x, JsNum.fin y) => some (p, x, y)
    | _ => none)

/-- Claim C7: a redraw recomputes the projection from the current
viewport and hides exactly the points whose projected coordinates are
`null` or non-finite, rendering all others at their projected position;
the heatmap renderer likewise draws a point iff its projection is finite. -/
theorem redraw_hides_nonfinite (projF : Proj) (v : Viewport)
    (data : List Feature) (hdata : List HeatPoint) (i : ℕ)
    (hi : i < data.length) :
    ∃ disp, (pointReset projF v data)[i]? = some (data[i], disp) ∧
      (∀ x y, disp = RenderDisp.shown x y ↔
        projF (resetParams v) (data[i].lng, data[i].lat) =
          some (JsNum.fin x, JsNum.fin y)) ∧
      (disp = RenderDisp.hidden ↔
        ∀ x y, projF (resetParams v) (data[i].lng, data[i].lat) ≠
          some (JsNum.fin x, JsNum.fin y)) ∧
      (∀ hp x y, (hp, x, y) ∈ heatDrawn projF v hdata ↔
        hp ∈ hdata ∧ projF (resetParams v) (hp.lng, hp.lat) =
          some (JsNum.fin x, JsNum.fin y)) := by
  have hmap : (pointReset projF v data)[i]? =
      some (data[i], renderOne (projF (resetParams v)) data[i]) := by
    rw [pointReset, List.getElem?_map, List.getElem?_eq_getElem hi, Option.map_some']
  refine ⟨_, hmap, ?_, ?_, ?_⟩
  · intro x y
    rcases hres : projF (resetParams v) (data[i].lng, data[i].lat) with - | ⟨px, py⟩
    · simp [renderOne, hres]
    · cases px <;> cases py <;> simp [renderOne, hres]
  · rcases hres : projF (resetParams v) (data[i].lng, data[i].lat) with - | ⟨px, py⟩
    · simp [renderOne, hres]
    · cases px <;> cases py <;> simp [renderOne, hres]
  · intro hp x y
    rw [heatDrawn, List.mem_filterMap]
    constructor
    · rintro ⟨p2, hp2mem, hp2⟩
      rcases hres : projF (resetParams v) (p2.lng, p2.lat) with - | ⟨px, py⟩
      · rw [hres] at hp2
        exact absurd hp2 (by simp)
      · rw [hres] at hp2
        cases px <;> cases py
        case fin.fin qx qy =>
          obtain ⟨rfl, rfl, rfl⟩ : p2 = hp ∧ qx = x ∧ qy = y := by simpa using hp2
          exact ⟨hp2mem, hres⟩
        all_goals simp at hp2
    · rintro ⟨hmem, hres⟩
      exact ⟨hp, hmem, by rw [hres]⟩

/-- Sample projection (finite everywhere) used by the witness. -/
def demoProj : Proj := fun _ p => some (JsNum.fin p.1, JsNum.fin p.2)

def demoViewport : Viewport := ⟨0, 0, 2, 800, 600⟩

/-- Witness for `redraw_hides_nonfinite`: under a projection that is
finite everywhere, the first demo feature is shown at its projected
position. -/
theorem redraw_hides_nonfinite_witness :
    (pointReset demoProj demoViewport demoFeatures)[0]? =
      some (demoF1, RenderDisp.shown demoF1.lng demoF1.lat) := by
  obtain ⟨disp, hmain, hshown, -, -⟩ :=
    redraw_hides_nonfinite demoProj demoViewport demoFeatures [] 0 (by decide)
  have hd : disp = RenderDisp.shown demoF1.lng demoF1.lat :=
    (hshown demoF1.lng demoF1.lat).mpr rfl
  rw [hd] at hmain
  exact hmain

end FireMap

namespace FireMap

/-! ### Gradient color fallback, from `colorToRgba`
(`MapTab.vue` lines 712-742)

`colorToRgba` tries, in order: the `rgba(`-prefixed form matched by
`/rgba?\((\d+),\s*(\d+),\s*(\d+)/`, the `rgb(`-prefixed form matched by
`/rgb\((\d+),\s*(\d+),\s*(\d+)\)/`, and the `#`-prefixed form parsed with
`parseInt(slice, 16)`; when all fail it warns and returns
`rgba(255, 0, 0, alpha)`.  The matched digit groups are spliced into the
result verbatim (as strings); the hex branch splices the parsed numbers.
The alpha argument is passed as its rendered text. -/

/-- JS `startsWith`, on the underlying characters. -/
def strStarts (s pre : String) : Bool := isPrefixOfB pre.data s.data

/-- Maximal `\d+` prefix: the matched digits and the rest. -/
def digitsGo : List Char → List Char × List Char
  | [] => ([], [])
  | c :: t =>
    if c.isDigit then
      let r := digitsGo t
      (c :: r.1, r.2)
    else ([], c :: t)

def digitsPrefix (l : List Char) : Option (List Char × List Char) :=
  match l with
  | [] => none
  | c :: t => if c.isDigit then some (digitsGo (c :: t)) else none

def isJsSpace (c : Char) : Bool :=
  c == ' ' || c == '\t' || c == '\n' || c == '\r'

/-- `\s*`. -/
def skipSpaces (l : List Char) : List Char := l.dropWhile isJsSpace

/-- `(\d+),\s*(\d+),\s*(\d+)` and, when `needClose` is set, a final `\)`. -/
def parseTriple (t : List Char) (needClose : Bool) :
    Option (List Char × List Char × List Char) :=
  match digitsPrefix t with
  | none => none
  | some (d1, t1) =>
    match t1 with
    | ',' :: t2 =>
      match digitsPrefix (skipSpaces t2) with
      | none => none
      | some (d2, t3) =>
        match t3 with
        | ',' :: t4 =>
          match digitsPrefix (skipSpaces t4) with
          | none => none
          | some (d3, t5) =>
            if needClose then
              match t5 with
              | ')' :: _ => some (d1, d2, d3)
              | _ => none
            else some (d1, d2, d3)
        | _ => none
    | _ => none

/-- `/rgba?\((\d+),\s*(\d+),\s*(\d+)/` at the current position. -/
def rgbaMatchAt : List Char → Option (List Char × List Char × List Char)
  | 'r' :: 'g' :: 'b' :: 'a' :: '(' :: t => parseTriple t false
  | 'r' :: 'g' :: 'b' :: '(' :: t => parseTriple t false
  | _ => none

/-- `/rgb\((\d+),\s*(\d+),\s*(\d+)\)/` at the current position. -/
def rgbMatchAt : List Char → Option (List Char × List Char × List Char)
  | 'r' :: 'g' :: 'b' :: '(' :: t => parseTriple t true
  | _ => none

/-- Unanchored regex search: first match over all start positions. -/
def searchRgba : List Char → Option (List Char × List Char × List Char)
  | [] => none
  | c :: t =>
    match rgbaMatchAt (c :: t) with
    | some v => some v
    | none => searchRgba t

def searchRgb : List Char → Option (List Char × List Char × List Char)
  | [] => none
  | c :: t =>
    match rgbMatchAt (c :: t) with
    | some v => some v
    | none => searchRgb t

/-- Accumulate the maximal hex-digit prefix (JS `parseInt(_, 16)` parses
the longest valid prefix and ignores the remainder). -/
def hexDigitsGo : List Char → ℕ → ℕ
  | [], acc => acc
  | c :: t, acc => if isHexDigit c then hexDigitsGo t (16 * acc + hexVal c) else acc

/-- JS `parseInt(s, 16)`: strip an optional `0x`/`0X`, then parse the
maximal hex-digit prefix; `none` is `NaN` (no digit at all).  Leading
whitespace and signs do not occur at the call sites (two-character slices
of a color string). -/
def parseIntHex (s : String) : Option ℕ :=
  let l : List Char :=
    match s.data with
    | '0' :: 'x' :: t => t
    | '0' :: 'X' :: t => t
    | t => t
  match l with
  | [] => none
  | c :: t => if isHexDigit c then some (hexDigitsGo t (hexVal c)) else none

/-- JS `slice(a, b)` for `0 ≤ a ≤ b`. -/
def sliceStr (s : String) (a b : ℕ) : String :=
  String.mk ((s.data.drop a).take (b - a))

/-- The `rgba(r, g, b, alpha)` template string. -/
def mkRgba (r g b alpha : String) : String :=
  "rgba(" ++ r ++ ", " ++ g ++ ", " ++ b ++ ", " ++ alpha ++ ")"

def tryRgba (s : String) : Option (List Char × List Char × List Char) :=
  if strStarts s "rgba(" then searchRgba s.data else none

def tryRgb (s : String) : Option (List Char × List Char × List Char) :=
  if strStarts s "rgb(" then searchRgb s.data else none

def tryHex (s : String) : Option (ℕ × ℕ × ℕ) :=
  if strStarts s "#" then
    match parseIntHex (sliceStr s 1 3), parseIntHex (sliceStr s 3 5),
        parseIntHex (sliceStr s 5 7) with
    | some r, some g, some b => some (r, g, b)
    | _, _, _ => none
  else none

/-- `colorToRgba` (lines 712-742), with the emitted `console.warn` made
explicit as the boolean second component: `true` exactly when every parse
failed and the default `rgba(255, 0, 0, alpha)` is returned. -/
def colorToRgbaW (colorStr alphaStr : String) : String × Bool :=
  match tryRgba colorStr with
  | some (r, g, b) =>
    (mkRgba (String.mk r) (String.mk g) (String.mk b) alphaStr, false)
  | none =>
    match tryRgb colorStr with
    | some (r, g, b) =>
      (mkRgba (String.mk r) (String.mk g) (String.mk b) alphaStr, false)
    | none =>
      match tryHex colorStr with
      | some (r, g, b) =>
        (mkRgba (toString r) (toString g) (toString b) alphaStr, false)
      | none => (mkRgba "255" "0" "0" alphaStr, true)

def colorToRgba (colorStr alphaStr : String) : String :=
  (colorToRgbaW colorStr alphaStr).1

/-- Claim C8: whenever the renderer warns, the returned color is the
default `rgba(255, 0, 0, alpha)`; a string matching none of the three
recognized shapes always falls back to that default with a warning; the
function is total and every possible result is an `rgba(...)` template
instance (never an unparsed value); and `interpolateColor` returns its
first argument whenever either endpoint fails to parse. -/
theorem color_fallback_spec (s a c1 c2 : String) (f : ℚ) :
    ((colorToRgbaW s a).2 = true → (colorToRgbaW s a).1 = mkRgba "255" "0" "0" a) ∧
    (strStarts s "rgba(" = false → strStarts s "rgb(" = false →
      strStarts s "#" = false →
      colorToRgbaW s a = (mkRgba "255" "0" "0" a, true)) ∧
    (∃ r g b, (colorToRgbaW s a).1 = mkRgba r g b a) ∧
    ((hexToRgb c1 = none ∨ hexToRgb c2 = none) → interpolateColor c1 c2 f = c1) := by
  refine ⟨?_, ?_, ?_, ?_⟩
  · rcases h1 : tryRgba s with - | ⟨r, g, b⟩
    · rcases h2 : tryRgb s with - | ⟨r, g, b⟩
      · rcases h3 : tryHex s with - | ⟨r, g, b⟩
        · intro _
          simp [colorToRgbaW, h1, h2, h3]
        · simp [colorToRgbaW, h1, h2, h3]
      · simp [colorToRgbaW, h1, h2]
    · simp [colorToRgbaW, h1]
  · intro hs1 hs2 hs3
    have h1 : tryRgba s = none := by simp [tryRgba, hs1]
    have h2 : tryRgb s = none := by simp [tryRgb, hs2]
    have h3 : tryHex s = none := by simp [tryHex, hs3]
    simp [colorToRgbaW, h1, h2, h3]
  · rcases h1 : tryRgba s with - | ⟨r, g, b⟩
    · rcases h2 : tryRgb s with - | ⟨r, g, b⟩
      · rcases h3 : tryHex s with - | ⟨r, g, b⟩
        · exact ⟨"255", "0", "0", by simp [colorToRgbaW, h1, h2, h3]⟩
        · exact ⟨toString r, toString g, toString b, by simp [colorToRgbaW, h1, h2, h3]⟩
      · exact ⟨String.mk r, String.mk g, String.mk b, by simp [colorToRgbaW, h1, h2]⟩
    · exact ⟨String.mk r, String.mk g, String.mk b, by simp [colorToRgbaW, h1]⟩
  · intro h
    rcases h with h | h
    · cases hc2 : hexToRgb c2 <;> simp [interpolateColor, h, hc2]
    · cases hc1 : hexToRgb c1 <;> simp [interpolateColor, h, hc1]

/-- Witness for `color_fallback_spec`: `"notacolor"` matches no shape and
falls back with a warning; the named color `"red"` fails `hexToRgb`, so
interpolation returns it unchanged. -/
theorem color_fallback_spec_witness :
    colorToRgbaW "notacolor" "0.5" = (mkRgba "255" "0" "0" "0.5", true) ∧
    interpolateColor "red" "#FFFFFF" (1/2) = "red" :=
  ⟨(color_fallback_spec "notacolor" "0.5" "red" "#FFFFFF" (1/2)).2.1
      (by decide) (by decide) (by decide),
   (color_fallback_spec "notacolor" "0.5" "red" "#FFFFFF" (1/2)).2.2.2
      (Or.inl (by decide))⟩

end FireMap

namespace FireMap

/-- Witness for `getStatistics_spec` at the three-feature demo list. -/
theorem getStatistics_spec_witness :
    (getStatistics demoFeatures).total = demoFeatures.length ∧
    (getStatistics demoFeatures).countries =
      (demoFeatures.map countryOf).toFinset.card :=
  ⟨(getStatistics_spec demoFeatures).1, (getStatistics_spec demoFeatures).2.1⟩

/-- Witness for `loadSavedLocations_error_spec` at a concrete store state
and a concrete HTTP 404 failure. -/
theorem loadSavedLocations_error_spec_witness :
    (loadStep ⟨[demoF1], false, none⟩ (.notOk 404)).2.error =
      some (httpErrorMessage 404) ∧
    (loadStep ⟨[demoF1], false, none⟩ (.notOk 404)).2.savedLocations = [demoF1] :=
  ⟨(loadSavedLocations_error_spec ⟨[demoF1], false, none⟩ 404 "x").1.1,
   (loadSavedLocations_error_spec ⟨[demoF1], false, none⟩ 404 "x").1.2.2⟩

end FireMap
